import Mathlib

/-!
Shallow embedding of the request/retry/proof-of-work engine and the
decryption-context derivation of the mega client core
(`src/http/mod.rs` and `src/http/reqwest.rs`), together with theorems
settling the specification claims about them.
-/

namespace Mega

/-- Application-level error codes returned by the API.  The source's
`ErrorCode` enum distinguishes `OK`, `EAGAIN` (the retry sentinel) and all
other numeric codes; the engine only ever compares against `OK` and
`EAGAIN`, so the remaining codes are collapsed into `other`. -/
inductive ErrorCode where
  | ok
  | eagain
  | other (code : Int)
deriving DecidableEq, Repr

/-- The error cases of `crate::error::Error` that the code under `src/` can
produce: `MaxRetriesReached`, an application error built from an
`ErrorCode` (`Error::from(code)`), a propagated JSON deserialization
failure, a propagated body-read failure, and the errors a request's own
response decoder may return (collapsed into `decode`). -/
inductive Error where
  | maxRetriesReached
  | api (code : ErrorCode)
  | jsonParse
  | bytesRead
  | decode (tag : Nat)
deriving DecidableEq, Repr

/-- The user's RSA private key (`crate::utils::rsa::RsaPrivateKey`).  Its
internals are outside the embedded core; the engine and the context
derivation treat it as an opaque value that is only cloned. -/
structure RsaPrivateKey where
  data : List Nat
deriving DecidableEq, Repr

/-- Structure `ShareKey` from `src/http/mod.rs`: an opaque handle paired with a raw
symmetric key. -/
structure ShareKey where
  handle : String
  key : List Nat
deriving DecidableEq, Repr

/-- Structure `UserSession` from `src/http/mod.rs`.  The fixed-size byte arrays
(`[u8; 16]`) are modelled as byte lists; their length plays no role in the
embedded operations. -/
structure UserSession where
  session_id : String
  master_key : List Nat
  sek : List Nat
  private_key : RsaPrivateKey
  user_handle : String
  share_keys : Option (List ShareKey)
deriving DecidableEq, Repr

/-- Modelled from the spec: `UserAttributesResponse`
(`crate::protocol::commands`) is outside `src/`; the spec only says it is a
server-returned payload from which share keys can be extracted using the
session's keys, and that this extraction can fail.  The payload is
therefore represented by the outcome of that extraction: either the list
of embedded `(handle, key)` pairs it decodes to, or the extraction
error. -/
structure UserAttributesResponse where
  extraction : Except Error (List (String × List Nat))
deriving Repr

/-- Structure `DecryptionContext` (constructed in `src/http/mod.rs`): the per-call
secret bundle.  The secrecy wrappers (`SecretString`, `SecretBox`,
`SecretSlice`) only affect memory handling, so each field holds the
underlying value; `node_key` holds the bytes of the decoded UTF-8
string. -/
structure DecryptionContext where
  user_handle : String
  user_master_key : List Nat
  user_private_key : RsaPrivateKey
  node_key : Option (List Nat)
  share_keys : List (String × List Nat)
deriving DecidableEq, Repr

/-- Whether a byte is a UTF-8 continuation byte (`0x80..=0xBF`). -/
def isUtf8Cont (b : Nat) : Bool :=
  0x80 ≤ b && b ≤ 0xBF

/-- Strict UTF-8 validity of a byte sequence, as checked by Rust's
`String::from_utf8`: rejects overlong encodings, surrogates and code
points above `U+10FFFF`. -/
def utf8Valid : List Nat → Bool
  | [] => true
  | b :: rest =>
    if b ≤ 0x7F then
      utf8Valid rest
    else if 0xC2 ≤ b && b ≤ 0xDF then
      match rest with
      | c1 :: r => isUtf8Cont c1 && utf8Valid r
      | [] => false
    else if b = 0xE0 then
      match rest with
      | c1 :: c2 :: r => (0xA0 ≤ c1 && c1 ≤ 0xBF) && isUtf8Cont c2 && utf8Valid r
      | _ => false
    else if (0xE1 ≤ b && b ≤ 0xEC) || b = 0xEE || b = 0xEF then
      match rest with
      | c1 :: c2 :: r => isUtf8Cont c1 && isUtf8Cont c2 && utf8Valid r
      | _ => false
    else if b = 0xED then
      match rest with
      | c1 :: c2 :: r => (0x80 ≤ c1 && c1 ≤ 0x9F) && isUtf8Cont c2 && utf8Valid r
      | _ => false
    else if b = 0xF0 then
      match rest with
      | c1 :: c2 :: c3 :: r =>
        (0x90 ≤ c1 && c1 ≤ 0xBF) && isUtf8Cont c2 && isUtf8Cont c3 && utf8Valid r
      | _ => false
    else if 0xF1 ≤ b && b ≤ 0xF3 then
      match rest with
      | c1 :: c2 :: c3 :: r =>
        isUtf8Cont c1 && isUtf8Cont c2 && isUtf8Cont c3 && utf8Valid r
      | _ => false
    else if b = 0xF4 then
      match rest with
      | c1 :: c2 :: c3 :: r =>
        (0x80 ≤ c1 && c1 ≤ 0x8F) && isUtf8Cont c2 && isUtf8Cont c3 && utf8Valid r
      | _ => false
    else
      false

/-- The cached share keys of a session as `(handle, key)` pairs. -/
def cachedSharePairs (s : UserSession) : List (String × List Nat) :=
  (s.share_keys.getD []).map (fun k => (k.handle, k.key))

/-- Modelled from the spec: `utils::extract_share_keys` is outside `src/`.
The spec says it extracts any share keys embedded in the user attributes
(decrypting them with the session's keys) and merges them with any keys
already cached on the session, and that it can fail. -/
def extract_share_keys (s : UserSession) (ua : UserAttributesResponse) :
    Except Error (List (String × List Nat)) :=
  ua.extraction.map (fun ks => cachedSharePairs s ++ ks)

/-- Outcome of `UserSession::decryption_context`: a context, a returned
error, or a panic (the embedding makes the `unwrap` panic explicit). -/
inductive DcResult where
  | ok (ctx : DecryptionContext)
  | err (e : Error)
  | panic
deriving DecidableEq, Repr

/-- Method `UserSession::decryption_context` from `src/http/mod.rs`.  With
attributes present the share keys come from `extract_share_keys` (its
failure propagates via `?`); with no attributes the map is
`HashMap::default()`, i.e. empty.  The node key, when present, is decoded
by `String::from_utf8(node_key).unwrap()`: on invalid UTF-8 this `unwrap`
panics, which the embedding records as `DcResult.panic`. -/
def decryption_context (s : UserSession) (user_attributes : Option UserAttributesResponse)
    (node_key : Option (List Nat)) : DcResult :=
  match (match user_attributes with
         | some ua => extract_share_keys s ua
         | none => Except.ok []) with
  | .error e => .err e
  | .ok share_keys =>
    match node_key with
    | some nk =>
      if utf8Valid nk then
        .ok ⟨s.user_handle, s.master_key, s.private_key, some nk, share_keys⟩
      else
        .panic
    | none => .ok ⟨s.user_handle, s.master_key, s.private_key, none, share_keys⟩

/-- A logical API request (`crate::protocol::commands::Request`).  The
engine treats requests opaquely except for asking each one to interpret
its own raw positional result (`Request::parse_response_data`), so a
request is modelled by that decoding capability.  `V` is the type of raw
JSON result values, `R` the type of parsed responses; the engine never
inspects either. -/
structure Request (V R : Type) where
  parse_response_data : V → Except Error R

/-- Shape of a successfully received response body, classified the way
`send_requests` classifies it: it parses as a single application
`ErrorCode`, or as a JSON array of raw per-request values, or as
neither. -/
inductive BodyShape (V : Type) where
  | errorCode (code : ErrorCode)
  | array (values : List V)
  | malformed

/-- The observable outcome of one dispatch attempt, as produced by the
underlying HTTP transport.  `timeout` can only arise when a per-attempt
timeout is configured; `paymentRequired` carries the result of
`parse_hashcash_header` on the `x-hashcash` response header (that parser
lives outside `src/`, so the header is represented by its parse result: a
`(token, easiness)` pair or `none` for a missing or garbled header);
`bodyReadError` is a failure while reading the body of a success-status
response; `httpError` is any other non-success status. -/
inductive AttemptOutcome (V : Type) where
  | netError
  | timeout
  | paymentRequired (challenge : Option (String × Nat))
  | httpError
  | bodyReadError
  | success (body : BodyShape V)

/-- The target URL of the call: the origin joined with the `/cs` API path,
plus the ordered query pairs. -/
structure UrlModel where
  base : String
  queryPairs : List (String × String)
deriving DecidableEq, Repr

/-- What one iteration of the attempt loop observably does before
dispatching: the backoff delay it slept (`none` when it did not sleep),
the `x-hashcash` request header it attached (`none` when no challenge was
pending), and the URL it POSTed to. -/
structure AttemptRecord where
  slept : Option Nat
  hashcashHeader : Option String
  url : UrlModel
deriving DecidableEq, Repr

/-- Result of a `send_requests` call. -/
inductive SendResult (R : Type) where
  | ok (responses : List R)
  | err (e : Error)

/-- Embedding of `requests.iter().zip(responses).map(|(req, resp)| req.parse_response_data(resp)).collect()`:
pairs positionally (zip truncates at the shorter list) and fails fast on
the first decoding error. -/
def collectResponses {V R : Type} : List (Request V R) → List V → Except Error (List R)
  | [], _ => .ok []
  | _, [] => .ok []
  | req :: reqs, v :: vs =>
    match req.parse_response_data v with
    | .error e => .error e
    | .ok r =>
      match collectResponses reqs vs with
      | .error e => .error e
      | .ok rs => .ok (r :: rs)

/-- Prepend this attempt's record to the trace of a loop continuation. -/
def consRecord {R : Type} (rec : AttemptRecord) :
    SendResult R × List AttemptRecord → SendResult R × List AttemptRecord
  | (res, recs) => (res, rec :: recs)

/-- The attempt loop of `send_requests` (`for attempt in 1..=max_retries`
in `src/http/reqwest.rs`), with the outcome of each attempt supplied by
`outcomes` (indexed by the 1-based attempt number) and the hashcash stamp
computation supplied by `gencash` (the solver itself lives outside
`src/`).  `remaining` is the number of attempts left
(`max_retries - attempt + 1`); `delay` is the current backoff delay and
`challenge` the pending hashcash challenge.  Besides the result, it
returns the record of what every executed attempt did. -/
def sendLoop {V R : Type} (gencash : String → Nat → String) (maxDelay : Nat)
    (url : UrlModel) (requests : List (Request V R)) (outcomes : Nat → AttemptOutcome V) :
    Nat → Nat → Nat → Option (String × Nat) → SendResult R × List AttemptRecord
  | 0, _, _, _ => (.err .maxRetriesReached, [])
  | remaining + 1, attempt, delay, challenge =>
    let sleepNow := decide (1 < attempt) && challenge.isNone
    let slept : Option Nat := if sleepNow then some delay else none
    let delay' := if sleepNow then min (delay * 2) maxDelay else delay
    let hdr : Option String :=
      challenge.map (fun c => "1:" ++ c.1 ++ ":" ++ gencash c.1 c.2)
    let record : AttemptRecord := ⟨slept, hdr, url⟩
    match outcomes attempt with
    | .netError =>
      consRecord record (sendLoop gencash maxDelay url requests outcomes remaining (attempt + 1) delay' none)
    | .timeout =>
      consRecord record (sendLoop gencash maxDelay url requests outcomes remaining (attempt + 1) delay' none)
    | .paymentRequired (some c) =>
      consRecord record (sendLoop gencash maxDelay url requests outcomes remaining (attempt + 1) delay' (some c))
    | .paymentRequired none => (.err .maxRetriesReached, [record])
    | .httpError =>
      consRecord record (sendLoop gencash maxDelay url requests outcomes remaining (attempt + 1) delay' none)
    | .bodyReadError => (.err .bytesRead, [record])
    | .success (.errorCode code) =>
      if code = .eagain then
        consRecord record (sendLoop gencash maxDelay url requests outcomes remaining (attempt + 1) delay' none)
      else
        (.err (.api code), [record])
    | .success .malformed => (.err .jsonParse, [record])
    | .success (.array values) =>
      match collectResponses requests values with
      | .ok rs => (.ok rs, [record])
      | .error e => (.err e, [record])

/-- Structure `ClientState` from `src/http/mod.rs`.  Durations are modelled as
natural numbers (e.g. milliseconds); the atomic `id_counter` is the
current counter value, with `send_requests` returning the incremented
value (`AtomicU64` wraps at `2^64`). -/
structure ClientState where
  origin : String
  max_retries : Nat
  min_retry_delay : Nat
  max_retry_delay : Nat
  timeout : Option Nat
  https : Bool
  id_counter : Nat
  session : Option UserSession

/-- URL construction at the top of `send_requests`: join `/cs` onto the
origin, append the `id` pair from the counter, then `sid` when a session
is present, then the caller-supplied pairs in order. -/
def buildUrl (state : ClientState) (query_params : List (String × String)) : UrlModel :=
  ⟨state.origin ++ "/cs",
    ("id", toString state.id_counter)
      :: ((match state.session with
           | some s => [("sid", s.session_id)]
           | none => []) ++ query_params)⟩

/-- Function `send_requests` from `src/http/reqwest.rs`: build the URL once
(performing the single `fetch_add` on the id counter), then run the
attempt loop starting at attempt 1 with delay `min_retry_delay` and no
pending challenge.  Returns the call result, the trace of executed
attempts, and the id counter value after the call. -/
def send_requests {V R : Type} (gencash : String → Nat → String) (state : ClientState)
    (requests : List (Request V R)) (query_params : List (String × String))
    (outcomes : Nat → AttemptOutcome V) :
    SendResult R × List AttemptRecord × Nat :=
  let url := buildUrl state query_params
  let run := sendLoop gencash state.max_retry_delay url requests outcomes
    state.max_retries 1 state.min_retry_delay none
  (run.1, run.2, (state.id_counter + 1) % 2 ^ 64)

/-- The attempt records produced by a run in which every attempt from some
point on hits the retry sentinel, starting from backoff delay `d` with the
sleep active (attempt number at least 2): each iteration sleeps the
current delay, attaches no header, and doubles the delay capped at
`maxDelay`. -/
def eagainTrace (url : UrlModel) (maxDelay : Nat) : Nat → Nat → List AttemptRecord
  | 0, _ => []
  | r + 1, d => ⟨some d, none, url⟩ :: eagainTrace url maxDelay r (min (d * 2) maxDelay)

/-- The sequence of backoff delays slept from initial delay `d`: each
delay is followed by its double capped at `maxDelay`. -/
def backoffChain (maxDelay : Nat) : Nat → Nat → List Nat
  | 0, _ => []
  | r + 1, d => d :: backoffChain maxDelay r (min (d * 2) maxDelay)

lemma consRecord_fst {R : Type} (record : AttemptRecord)
    (p : SendResult R × List AttemptRecord) : (consRecord record p).1 = p.1 := by
  cases p
  rfl

lemma consRecord_snd {R : Type} (record : AttemptRecord)
    (p : SendResult R × List AttemptRecord) : (consRecord record p).2 = record :: p.2 := by
  cases p
  rfl

/-- A successful `collectResponses` is exactly the positional zip of each
request's decoder with the raw values, every decode succeeding. -/
lemma collectResponses_ok_zip {V R : Type} :
    ∀ (reqs : List (Request V R)) (vs : List V) (rs : List R),
      collectResponses reqs vs = .ok rs →
        List.zipWith (fun q v => q.parse_response_data v) reqs vs = rs.map Except.ok := by
  intro reqs
  induction reqs with
  | nil =>
    intro vs rs h
    cases vs <;> simp [collectResponses] at h <;> simp [← h]
  | cons q qs ih =>
    intro vs rs h
    cases vs with
    | nil =>
      simp [collectResponses] at h
      simp [← h]
    | cons v vs =>
      simp only [collectResponses] at h
      rcases hp : q.parse_response_data v with e | r <;> rw [hp] at h
      · exact absurd h (by simp)
      · rcases hc : collectResponses qs vs with e | rs' <;> rw [hc] at h
        · exact absurd h (by simp)
        · have hrs : rs = r :: rs' := by
            cases h
            rfl
          subst hrs
          simp [List.zipWith, hp, ih vs rs' hc]

/-- A successful loop run got its responses from some attempt whose body
parsed as an array, through `collectResponses`. -/
lemma sendLoop_ok {V R : Type} (g : String → Nat → String) (maxD : Nat) (url : UrlModel)
    (reqs : List (Request V R)) (outcomes : Nat → AttemptOutcome V) (rs : List R) :
    ∀ (r attempt delay : Nat) (ch : Option (String × Nat)),
      (sendLoop g maxD url reqs outcomes r attempt delay ch).1 = .ok rs →
        ∃ k vs, outcomes k = .success (.array vs) ∧ collectResponses reqs vs = .ok rs := by
  intro r
  induction r with
  | zero =>
    intro attempt delay ch h
    exact absurd h (by simp [sendLoop])
  | succ n ih =>
    intro attempt delay ch h
    rcases houtc : outcomes attempt with _ | _ | (_ | c) | _ | _ | (code | values | _) <;>
      simp only [sendLoop, houtc] at h
    · rw [consRecord_fst] at h
      exact ih _ _ _ h
    · rw [consRecord_fst] at h
      exact ih _ _ _ h
    · exact absurd h (by simp)
    · rw [consRecord_fst] at h
      exact ih _ _ _ h
    · rw [consRecord_fst] at h
      exact ih _ _ _ h
    · exact absurd h (by simp)
    · by_cases hcode : code = ErrorCode.eagain
      · rw [if_pos hcode, consRecord_fst] at h
        exact ih _ _ _ h
      · rw [if_neg hcode] at h
        exact absurd h (by simp)
    · rcases hcol : collectResponses reqs values with e | rs' <;>
        simp only [hcol] at h
      · exact absurd h (by simp)
      · have hrs : rs' = rs := by
          simpa using h
        exact ⟨attempt, values, houtc, hrs ▸ hcol⟩
    · exact absurd h (by simp)

/-- Every attempt record of a loop run carries the URL the loop was given:
all attempts POST to the same URL. -/
lemma sendLoop_url_mem {V R : Type} (g : String → Nat → String) (maxD : Nat) (url : UrlModel)
    (reqs : List (Request V R)) (outcomes : Nat → AttemptOutcome V) :
    ∀ (r attempt delay : Nat) (ch : Option (String × Nat)) (record : AttemptRecord),
      record ∈ (sendLoop g maxD url reqs outcomes r attempt delay ch).2 →
        record.url = url := by
  intro r
  induction r with
  | zero =>
    intro attempt delay ch record h
    exact absurd h (by simp [sendLoop])
  | succ n ih =>
    intro attempt delay ch record h
    rcases houtc : outcomes attempt with _ | _ | (_ | c) | _ | _ | (code | values | _) <;>
      simp only [sendLoop, houtc] at h
    · rw [consRecord_snd] at h
      rcases List.mem_cons.mp h with h | h
      · rw [h]
      · exact ih _ _ _ _ h
    · rw [consRecord_snd] at h
      rcases List.mem_cons.mp h with h | h
      · rw [h]
      · exact ih _ _ _ _ h
    · rw [List.mem_singleton.mp h]
    · rw [consRecord_snd] at h
      rcases List.mem_cons.mp h with h | h
      · rw [h]
      · exact ih _ _ _ _ h
    · rw [consRecord_snd] at h
      rcases List.mem_cons.mp h with h | h
      · rw [h]
      · exact ih _ _ _ _ h
    · rw [List.mem_singleton.mp h]
    · by_cases hcode : code = ErrorCode.eagain
      · rw [if_pos hcode, consRecord_snd] at h
        rcases List.mem_cons.mp h with h | h
        · rw [h]
        · exact ih _ _ _ _ h
      · rw [if_neg hcode] at h
        rw [List.mem_singleton.mp h]
    · rcases hcol : collectResponses reqs values with e | rs' <;>
        simp only [hcol] at h <;> rw [List.mem_singleton.mp h]
    · rw [List.mem_singleton.mp h]

/-- From the second attempt on, a run in which every attempt hits the
retry sentinel exhausts its whole remaining budget, producing the
sleep-and-double trace, and ends in the retries-exhausted error. -/
lemma sendLoop_eagain {V R : Type} (g : String → Nat → String) (maxD : Nat) (url : UrlModel)
    (reqs : List (Request V R)) (outcomes : Nat → AttemptOutcome V)
    (hea : ∀ k, outcomes k = .success (.errorCode .eagain)) :
    ∀ (r attempt delay : Nat), 2 ≤ attempt →
      sendLoop g maxD url reqs outcomes r attempt delay none =
        (.err .maxRetriesReached, eagainTrace url maxD r delay) := by
  intro r
  induction r with
  | zero =>
    intro attempt delay _
    rfl
  | succ n ih =>
    intro attempt delay hatt
    have h1 : (1 < attempt) := by omega
    simp only [sendLoop, hea attempt, Option.isNone_none, Bool.and_true, decide_eq_true_eq,
      if_pos h1, Option.map_none', if_pos rfl]
    rw [ih (attempt + 1) (min (delay * 2) maxD) (by omega)]
    simp [consRecord, eagainTrace]

lemma eagainTrace_length (url : UrlModel) (maxD : Nat) :
    ∀ (r d : Nat), (eagainTrace url maxD r d).length = r := by
  intro r
  induction r with
  | zero => intro d; rfl
  | succ n ih =>
    intro d
    simp [eagainTrace, ih]

lemma eagainTrace_map_slept (url : UrlModel) (maxD : Nat) :
    ∀ (r d : Nat), (eagainTrace url maxD r d).map (fun a => a.slept) =
      (backoffChain maxD r d).map some := by
  intro r
  induction r with
  | zero => intro d; rfl
  | succ n ih =>
    intro d
    simp [eagainTrace, backoffChain, ih]

lemma backoffChain_mem_le (maxD : Nat) :
    ∀ (r d : Nat), d ≤ maxD → ∀ x ∈ backoffChain maxD r d, x ≤ maxD := by
  intro r
  induction r with
  | zero =>
    intro d _ x hx
    exact absurd hx (by simp [backoffChain])
  | succ n ih =>
    intro d hd x hx
    rcases List.mem_cons.mp hx with h | h
    · omega
    · exact ih (min (d * 2) maxD) (min_le_right _ _) x h

lemma backoffChain_chain (maxD : Nat) :
    ∀ (r d : Nat), d ≤ maxD → List.Chain' (· ≤ ·) (backoffChain maxD r d) := by
  intro r
  induction r with
  | zero =>
    intro d _
    simp [backoffChain]
  | succ n ih =>
    intro d hd
    cases n with
    | zero => simp [backoffChain]
    | succ m =>
      simp only [backoffChain, List.chain'_cons]
      refine ⟨le_min (by omega) hd, ?_⟩
      have := ih (min (d * 2) maxD) (min_le_right _ _)
      simpa [backoffChain] using this

lemma backoffChain_head (maxD : Nat) (n d : Nat) :
    (backoffChain maxD (n + 1) d).head? = some d := rfl

/-- A sample private key for concrete runs. -/
def sampleKey : RsaPrivateKey := ⟨[3, 5]⟩

/-- A sample session whose cached share keys map the handle `"A"` to the
key `[10, 11]`. -/
def sampleSession : UserSession :=
  ⟨"sess1", List.replicate 16 1, List.replicate 16 2, sampleKey, "handle7",
   some [⟨"A", [10, 11]⟩]⟩

/-- A request whose decoder accepts any raw value as-is. -/
def idRequest : Request Nat Nat := ⟨fun v => Except.ok v⟩

/-- A stand-in hashcash solver for concrete runs. -/
def stubGencash : String → Nat → String := fun _ _ => "stamp"

/-- A sample client state: 3 allowed attempts, backoff between 1 and 8,
no timeout, no session. -/
def c1State : ClientState := ⟨"https://g.api.mega.co.nz", 3, 1, 8, none, true, 41, none⟩

/-- A transport whose every attempt succeeds with a one-element array. -/
def c1Outcomes : Nat → AttemptOutcome Nat := fun _ => .success (.array [7])

/-- C1 (counterexample): a call with two requests whose server response
array has a single element returns successfully with a single response,
so the response list is shorter than the request list — the claimed exact
length match fails. -/
theorem claim1_counterexample :
    (send_requests stubGencash c1State [idRequest, idRequest] [] c1Outcomes).1 =
      .ok [7]
    ∧ ([7] : List Nat).length ≠ ([idRequest, idRequest]).length := by
  exact ⟨rfl, by decide⟩

/-- C1 (amended): a successful `send_requests` call took its result from
the array body of some attempt; the response at position `i` is the
interpretation, by request `i`'s own decoder, of the raw result at
position `i`, and the response list's length is the minimum of the
request-list and server-array lengths (the positional zip silently
truncates when the server array is shorter than the request list). -/
theorem claim1_theorem {V R : Type} (g : String → Nat → String) (st : ClientState)
    (reqs : List (Request V R)) (qp : List (String × String))
    (outcomes : Nat → AttemptOutcome V) (rs : List R)
    (h : (send_requests g st reqs qp outcomes).1 = .ok rs) :
    ∃ k vs, outcomes k = .success (.array vs)
      ∧ collectResponses reqs vs = .ok rs
      ∧ List.zipWith (fun q v => q.parse_response_data v) reqs vs = rs.map Except.ok
      ∧ rs.length = min reqs.length vs.length := by
  have h' : (sendLoop g st.max_retry_delay (buildUrl st qp) reqs outcomes
      st.max_retries 1 st.min_retry_delay none).1 = .ok rs := h
  obtain ⟨k, vs, hk, hcol⟩ := sendLoop_ok g _ _ reqs outcomes rs _ _ _ _ h'
  have hzip := collectResponses_ok_zip reqs vs rs hcol
  refine ⟨k, vs, hk, hcol, hzip, ?_⟩
  have hlen := congrArg List.length hzip
  simp [List.length_zipWith, List.length_map] at hlen
  omega

/-- Witness for C1 (amended) at a concrete successful call. -/
theorem claim1_witness :
    ∃ k vs, c1Outcomes k = .success (.array vs)
      ∧ collectResponses [idRequest] vs = .ok [7]
      ∧ List.zipWith (fun q v => q.parse_response_data v) [idRequest] vs =
          ([7] : List Nat).map Except.ok
      ∧ ([7] : List Nat).length = min [idRequest].length vs.length :=
  claim1_theorem stubGencash c1State [idRequest] [] c1Outcomes [7] rfl

/-- C2: with a node key that is not valid UTF-8, `decryption_context`
panics (the `unwrap` on `String::from_utf8`) instead of returning a
decode error — the embedding records this as `DcResult.panic`. -/
theorem claim2_theorem (s : UserSession) (ua : Option UserAttributesResponse)
    (nk : List Nat)
    (hex : ∀ a, ua = some a → (extract_share_keys s a).isOk = true)
    (h : utf8Valid nk = false) :
    decryption_context s ua (some nk) = .panic := by
  cases ua with
  | none => simp [decryption_context, h]
  | some a =>
    rcases hx : extract_share_keys s a with e | ks
    · have hok := hex a rfl
      rw [hx] at hok
      exact absurd hok (by simp [Except.isOk, Except.toBool])
    · simp [decryption_context, hx, h]

/-- Witness for C2: the single byte `0xFF` is not valid UTF-8, and
deriving a context for it panics. -/
theorem claim2_witness :
    utf8Valid [255] = false ∧ decryption_context sampleSession none (some [255]) = .panic :=
  ⟨rfl, claim2_theorem sampleSession none [255] (fun _ ha => Option.noConfusion ha) rfl⟩

/-- C3 (counterexample): a session whose cached share keys are exactly
`{A → [10, 11]}`, with no user attributes, yields a context whose
share-key mapping is empty — not `{A → [10, 11]}` as claimed. -/
theorem claim3_counterexample :
    decryption_context sampleSession none none =
      .ok ⟨"handle7", List.replicate 16 1, sampleKey, none, []⟩
    ∧ ([] : List (String × List Nat)) ≠ [("A", [10, 11])] := by
  exact ⟨rfl, by simp⟩

/-- C3 (amended): with no user attributes the context's share-key mapping
is empty — the session's cached keys are not carried over; with user
attributes the mapping is the extractor's output, which (modelled from
the spec) merges the session's cached keys with the keys embedded in the
attributes, so cached `{A→k1}` and embedded `{B→k2}` give
`{A→k1, B→k2}`. -/
theorem claim3_theorem (s : UserSession) (ua : UserAttributesResponse) :
    decryption_context s none none =
      .ok ⟨s.user_handle, s.master_key, s.private_key, none, []⟩
    ∧ decryption_context s (some ua) none =
        (match ua.extraction with
         | .error e => .err e
         | .ok ks =>
           .ok ⟨s.user_handle, s.master_key, s.private_key, none, cachedSharePairs s ++ ks⟩) := by
  constructor
  · rfl
  · rcases hx : ua.extraction with e | ks <;>
      simp [decryption_context, extract_share_keys, hx, Except.map]

/-- A transport whose every attempt is a payment-required status without a
parseable challenge header. -/
def c4Outcomes : Nat → AttemptOutcome Nat := fun _ => .paymentRequired none

/-- C4: an attempt whose response is Payment Required with no parseable
`x-hashcash` header makes the loop return the retries-exhausted error
immediately — the trace holds only that one attempt, however many
attempts of the budget remain — and hence `send_requests` hitting this on
its first attempt fails at once with a one-attempt trace. -/
theorem claim4_theorem {V R : Type} (g : String → Nat → String) (st : ClientState)
    (url : UrlModel) (reqs : List (Request V R)) (qp : List (String × String))
    (outcomes : Nat → AttemptOutcome V) (r attempt delay : Nat) (ch : Option (String × Nat))
    (h : outcomes attempt = .paymentRequired none) :
    ((sendLoop g st.max_retry_delay url reqs outcomes (r + 1) attempt delay ch).1 =
        .err .maxRetriesReached
      ∧ (sendLoop g st.max_retry_delay url reqs outcomes (r + 1) attempt delay ch).2.length = 1)
    ∧ (attempt = 1 → 1 ≤ st.max_retries →
        (send_requests g st reqs qp outcomes).1 = .err .maxRetriesReached
        ∧ (send_requests g st reqs qp outcomes).2.1.length = 1) := by
  constructor
  · simp [sendLoop, h]
  · intro ha hm
    obtain ⟨m, hmr⟩ : ∃ m, st.max_retries = m + 1 := ⟨st.max_retries - 1, by omega⟩
    subst ha
    simp [send_requests, hmr, sendLoop, h]

/-- Witness for C4 at a concrete call: the first attempt returns a 402
without a challenge, and the call fails at once. -/
theorem claim4_witness :
    (send_requests stubGencash c1State [idRequest] [] c4Outcomes).1 = .err .maxRetriesReached
    ∧ (send_requests stubGencash c1State [idRequest] [] c4Outcomes).2.1.length = 1 :=
  (claim4_theorem stubGencash c1State (buildUrl c1State []) [idRequest] [] c4Outcomes
    0 1 0 none rfl).2 rfl (by decide)

/-- A transport answering a hashcash challenge on attempt 1 and success
on every later attempt. -/
def c5Outcomes : Nat → AttemptOutcome Nat := fun k =>
  if k = 1 then .paymentRequired (some ("tok", 4)) else .success (.array [7])

/-- A transport answering a hashcash challenge on attempt 1, a network
error on attempt 2, and success afterwards. -/
def c5Outcomes2 : Nat → AttemptOutcome Nat := fun k =>
  if k = 1 then .paymentRequired (some ("tok", 4))
  else if k = 2 then .netError
  else .success (.array [7])

/-- C5: a parseable challenge on attempt 1 followed by a success makes the
call succeed in exactly two attempts; the second attempt does not sleep
and carries the `x-hashcash` request header `"1:<token>:<stamp>"` with the
stamp computed for that token at that easiness.  Moreover the challenge is
cleared once answered: if the second attempt fails transiently instead,
the third attempt carries no hashcash header and sleeps the (undoubled)
minimum backoff delay. -/
theorem claim5_theorem {V R : Type} (g : String → Nat → String) (st : ClientState)
    (reqs : List (Request V R)) (qp : List (String × String)) (t : String) (e : Nat)
    (vs : List V) (rs : List R) (outcomes outcomes2 : Nat → AttemptOutcome V)
    (h1 : outcomes 1 = .paymentRequired (some (t, e)))
    (h2 : outcomes 2 = .success (.array vs))
    (hcol : collectResponses reqs vs = .ok rs)
    (hm : 2 ≤ st.max_retries)
    (g1 : outcomes2 1 = .paymentRequired (some (t, e)))
    (g2 : outcomes2 2 = .netError)
    (g3 : outcomes2 3 = .success (.array vs))
    (gm : 3 ≤ st.max_retries) :
    send_requests g st reqs qp outcomes =
      (.ok rs,
       [⟨none, none, buildUrl st qp⟩,
        ⟨none, some ("1:" ++ t ++ ":" ++ g t e), buildUrl st qp⟩],
       (st.id_counter + 1) % 2 ^ 64)
    ∧ (send_requests g st reqs qp outcomes2).2.1 =
        [⟨none, none, buildUrl st qp⟩,
         ⟨none, some ("1:" ++ t ++ ":" ++ g t e), buildUrl st qp⟩,
         ⟨some st.min_retry_delay, none, buildUrl st qp⟩] := by
  constructor
  · obtain ⟨m, hmr⟩ : ∃ m, st.max_retries = m + 2 := ⟨st.max_retries - 2, by omega⟩
    simp [send_requests, hmr, sendLoop, h1, h2, hcol, consRecord]
  · obtain ⟨m, hmr⟩ : ∃ m, st.max_retries = m + 3 := ⟨st.max_retries - 3, by omega⟩
    simp [send_requests, hmr, sendLoop, g1, g2, g3, hcol, consRecord]

/-- Witness for C5 at a concrete two-attempt and three-attempt run. -/
theorem claim5_witness :
    send_requests stubGencash c1State [idRequest] [] c5Outcomes =
      (.ok [7],
       [⟨none, none, buildUrl c1State []⟩,
        ⟨none, some ("1:" ++ "tok" ++ ":" ++ stubGencash "tok" 4), buildUrl c1State []⟩],
       (c1State.id_counter + 1) % 2 ^ 64)
    ∧ (send_requests stubGencash c1State [idRequest] [] c5Outcomes2).2.1 =
        [⟨none, none, buildUrl c1State []⟩,
         ⟨none, some ("1:" ++ "tok" ++ ":" ++ stubGencash "tok" 4), buildUrl c1State []⟩,
         ⟨some c1State.min_retry_delay, none, buildUrl c1State []⟩] :=
  claim5_theorem stubGencash c1State [idRequest] [] "tok" 4 [7] [7] c5Outcomes c5Outcomes2
    rfl rfl rfl (by decide) rfl rfl rfl (by decide)

/-- A transport whose every attempt yields a bare `OK` error code body. -/
def c6OutcomesOk : Nat → AttemptOutcome Nat := fun _ => .success (.errorCode .ok)

/-- A transport whose every attempt yields the retry sentinel. -/
def c6OutcomesEagain : Nat → AttemptOutcome Nat := fun _ => .success (.errorCode .eagain)

/-- C6: when a success-status body parses as a bare application error
code, the loop continues to the next attempt exactly when the code is the
retry sentinel `EAGAIN`, and otherwise returns immediately with an error
carrying that code; in particular a bare `OK` code yields the error
`Error.api .ok`, never a success. -/
theorem claim6_theorem {V R : Type} (g : String → Nat → String) (maxD : Nat)
    (url : UrlModel) (reqs : List (Request V R)) (outcomes : Nat → AttemptOutcome V)
    (r attempt delay : Nat) (code : ErrorCode)
    (h : outcomes attempt = .success (.errorCode code)) :
    (code ≠ .eagain →
      sendLoop g maxD url reqs outcomes (r + 1) attempt delay none =
        (.err (.api code), [⟨if 1 < attempt then some delay else none, none, url⟩]))
    ∧ (code = .eagain →
      sendLoop g maxD url reqs outcomes (r + 1) attempt delay none =
        consRecord ⟨if 1 < attempt then some delay else none, none, url⟩
          (sendLoop g maxD url reqs outcomes r (attempt + 1)
            (if 1 < attempt then min (delay * 2) maxD else delay) none))
    ∧ (code = .ok →
      sendLoop g maxD url reqs outcomes (r + 1) attempt delay none =
        (.err (.api .ok), [⟨if 1 < attempt then some delay else none, none, url⟩])) := by
  refine ⟨?_, ?_, ?_⟩
  · intro hc
    by_cases ha : 1 < attempt <;> simp [sendLoop, h, hc, ha]
  · intro hc
    subst hc
    by_cases ha : 1 < attempt <;> simp [sendLoop, h, ha, consRecord]
  · intro hc
    subst hc
    by_cases ha : 1 < attempt <;>
      simp [sendLoop, h, ha, show ErrorCode.ok ≠ ErrorCode.eagain from by decide]

/-- Witness for C6: a bare `OK` body fails the call with the `OK` code,
and a bare `EAGAIN` body rolls into the next attempt. -/
theorem claim6_witness :
    sendLoop stubGencash 8 (buildUrl c1State []) [idRequest] c6OutcomesOk (2 + 1) 1 1 none =
      (.err (.api .ok), [⟨none, none, buildUrl c1State []⟩])
    ∧ sendLoop stubGencash 8 (buildUrl c1State []) [idRequest] c6OutcomesEagain (2 + 1) 1 1 none =
        consRecord ⟨none, none, buildUrl c1State []⟩
          (sendLoop stubGencash 8 (buildUrl c1State []) [idRequest] c6OutcomesEagain 2 2 1 none) :=
  ⟨(claim6_theorem stubGencash 8 (buildUrl c1State []) [idRequest] c6OutcomesOk
      2 1 1 .ok rfl).2.2 rfl,
   (claim6_theorem stubGencash 8 (buildUrl c1State []) [idRequest] c6OutcomesEagain
      2 1 1 .eagain rfl).2.1 rfl⟩

/-- A client state with 4 allowed attempts and backoff bounds 1 and 3. -/
def c7State : ClientState := ⟨"https://g.api.mega.co.nz", 4, 1, 3, none, true, 7, none⟩

/-- C7: under a transport whose every attempt yields the retry sentinel,
the call performs exactly `max_retries` attempts and fails with the
retries-exhausted error; the first attempt does not sleep, the slept
delays are the doubling chain started at `min_retry_delay`, that chain is
non-decreasing, never exceeds `max_retry_delay`, and (when there is at
least one retry) starts at `min_retry_delay`. -/
theorem claim7_theorem {V R : Type} (g : String → Nat → String) (st : ClientState)
    (reqs : List (Request V R)) (qp : List (String × String))
    (outcomes : Nat → AttemptOutcome V)
    (hea : ∀ k, outcomes k = .success (.errorCode .eagain))
    (hdelay : st.min_retry_delay ≤ st.max_retry_delay) :
    (send_requests g st reqs qp outcomes).1 = .err .maxRetriesReached
    ∧ (send_requests g st reqs qp outcomes).2.1.length = st.max_retries
    ∧ (send_requests g st reqs qp outcomes).2.1.map (fun a => a.slept) =
        (match st.max_retries with
         | 0 => []
         | n + 1 => none :: (backoffChain st.max_retry_delay n st.min_retry_delay).map some)
    ∧ List.Chain' (· ≤ ·) (backoffChain st.max_retry_delay (st.max_retries - 1) st.min_retry_delay)
    ∧ (∀ d ∈ backoffChain st.max_retry_delay (st.max_retries - 1) st.min_retry_delay,
        d ≤ st.max_retry_delay)
    ∧ (2 ≤ st.max_retries →
        (backoffChain st.max_retry_delay (st.max_retries - 1) st.min_retry_delay).head? =
          some st.min_retry_delay) := by
  rcases hmr : st.max_retries with _ | n
  · refine ⟨?_, ?_, ?_, ?_, ?_, ?_⟩ <;>
      simp [send_requests, hmr, sendLoop, backoffChain]
  · have hrun : sendLoop g st.max_retry_delay (buildUrl st qp) reqs outcomes
        (n + 1) 1 st.min_retry_delay none =
        (.err .maxRetriesReached,
         ⟨none, none, buildUrl st qp⟩ ::
           eagainTrace (buildUrl st qp) st.max_retry_delay n st.min_retry_delay) := by
      cases n with
      | zero => simp [sendLoop, hea 1, eagainTrace, consRecord]
      | succ m =>
        conv_lhs => rw [sendLoop]
        simp only [hea 1]
        simp only [Option.isNone_none, Bool.and_true, decide_eq_true_eq, Nat.lt_irrefl,
          if_false, Option.map_none', show (1 : Nat) + 1 = 2 from rfl, if_neg (by omega :
          ¬ (1 : Nat) < 1)]
        rw [sendLoop_eagain g _ _ reqs outcomes hea (m + 1) 2 st.min_retry_delay (by omega)]
        simp [consRecord, eagainTrace]
    refine ⟨?_, ?_, ?_, ?_, ?_, ?_⟩
    · simp only [send_requests, hmr, hrun]
    · simp only [send_requests, hmr, hrun]
      simp [eagainTrace_length]
    · simp only [send_requests, hmr, hrun]
      simp [eagainTrace_map_slept]
    · simpa using backoffChain_chain st.max_retry_delay n st.min_retry_delay hdelay
    · simpa using backoffChain_mem_le st.max_retry_delay n st.min_retry_delay hdelay
    · intro h2
      obtain ⟨m, hn⟩ : ∃ m, n = m + 1 := ⟨n - 1, by omega⟩
      subst hn
      simpa using backoffChain_head st.max_retry_delay m st.min_retry_delay

/-- Witness for C7 at a concrete always-EAGAIN run with 4 attempts. -/
theorem claim7_witness :
    (send_requests stubGencash c7State [idRequest] [] c6OutcomesEagain).1 =
      .err .maxRetriesReached
    ∧ (send_requests stubGencash c7State [idRequest] [] c6OutcomesEagain).2.1.length =
        c7State.max_retries
    ∧ (send_requests stubGencash c7State [idRequest] [] c6OutcomesEagain).2.1.map
        (fun a => a.slept) =
        (match c7State.max_retries with
         | 0 => []
         | n + 1 =>
           none :: (backoffChain c7State.max_retry_delay n c7State.min_retry_delay).map some)
    ∧ List.Chain' (· ≤ ·)
        (backoffChain c7State.max_retry_delay (c7State.max_retries - 1) c7State.min_retry_delay)
    ∧ (∀ d ∈ backoffChain c7State.max_retry_delay (c7State.max_retries - 1)
          c7State.min_retry_delay, d ≤ c7State.max_retry_delay)
    ∧ (2 ≤ c7State.max_retries →
        (backoffChain c7State.max_retry_delay (c7State.max_retries - 1)
          c7State.min_retry_delay).head? = some c7State.min_retry_delay) :=
  claim7_theorem stubGencash c7State [idRequest] [] c6OutcomesEagain (fun _ => rfl) (by decide)

/-- C8: a `send_requests` call increments the shared id counter exactly
once whatever the number of attempts, every attempt in the trace POSTs to
the one URL built for the call, and that URL is `/cs` joined onto the
origin with the `id` pair from the counter, then `sid` exactly when a
session is present, then the caller-supplied pairs in order. -/
theorem claim8_theorem {V R : Type} (g : String → Nat → String) (st : ClientState)
    (reqs : List (Request V R)) (qp : List (String × String))
    (outcomes : Nat → AttemptOutcome V) :
    (send_requests g st reqs qp outcomes).2.2 = (st.id_counter + 1) % 2 ^ 64
    ∧ (send_requests g st reqs qp outcomes).2.1.map (fun a => a.url) =
        List.replicate (send_requests g st reqs qp outcomes).2.1.length (buildUrl st qp)
    ∧ buildUrl st qp =
        ⟨st.origin ++ "/cs",
         ("id", toString st.id_counter)
           :: ((match st.session with
                | some s => [("sid", s.session_id)]
                | none => []) ++ qp)⟩ := by
  refine ⟨rfl, ?_, rfl⟩
  rw [List.eq_replicate_iff]
  refine ⟨by simp, ?_⟩
  intro b hb
  rcases List.mem_map.mp hb with ⟨record, hrec, hurl⟩
  rw [← hurl]
  exact sendLoop_url_mem g st.max_retry_delay (buildUrl st qp) reqs outcomes
    st.max_retries 1 st.min_retry_delay none record hrec

/-- A transport whose every attempt yields a body that parses neither as
an error code nor as an array. -/
def c9Outcomes : Nat → AttemptOutcome Nat := fun _ => .success .malformed

/-- C9: a success-status body that parses neither as a bare error code
nor as a JSON array makes the loop return the propagated parse error
immediately — the trace holds only that one attempt, regardless of the
remaining retry budget. -/
theorem claim9_theorem {V R : Type} (g : String → Nat → String) (maxD : Nat)
    (url : UrlModel) (reqs : List (Request V R)) (outcomes : Nat → AttemptOutcome V)
    (r attempt delay : Nat) (ch : Option (String × Nat))
    (h : outcomes attempt = .success .malformed) :
    (sendLoop g maxD url reqs outcomes (r + 1) attempt delay ch).1 = .err .jsonParse
    ∧ (sendLoop g maxD url reqs outcomes (r + 1) attempt delay ch).2.length = 1 := by
  simp [sendLoop, h]

/-- Witness for C9 at a concrete malformed-body attempt. -/
theorem claim9_witness :
    (sendLoop stubGencash 8 (buildUrl c1State []) [idRequest] c9Outcomes (3 + 1) 1 1 none).1 =
      .err .jsonParse
    ∧ (sendLoop stubGencash 8 (buildUrl c1State []) [idRequest] c9Outcomes
        (3 + 1) 1 1 none).2.length = 1 :=
  claim9_theorem stubGencash 8 (buildUrl c1State []) [idRequest] c9Outcomes 3 1 1 none rfl

end Mega
